import Mathlib

/-!
# Verification of the Fridge_react backend (src/backend/server.js, src/init.sql)

Shallow embedding of the Express + PostgreSQL backend.  The table
`fridge_items(id, name, is_in_fridge, created_at)` is modelled as a list of
rows together with the SERIAL counter for the next `id`.  Each HTTP handler
is modelled as a pure function from the stored state (and the request data)
to an HTTP response and the successor state.  JavaScript's `String.trim` and
the driver-side integer parse of the `$1` path parameter are modelled
explicitly.
-/

namespace Fridge

/-- One row of `fridge_items` (src/init.sql): `id SERIAL PRIMARY KEY`,
`name VARCHAR(255) NOT NULL`, `is_in_fridge BOOLEAN DEFAULT true`,
`created_at TIMESTAMP DEFAULT CURRENT_TIMESTAMP`.  Timestamps are modelled
as naturals. -/
structure Row where
  id : Nat
  name : String
  is_in_fridge : Bool
  created_at : Nat
deriving DecidableEq, Repr

/-- The stored table plus the SERIAL sequence for `id`. -/
structure DBState where
  rows : List Row
  nextId : Nat
deriving DecidableEq, Repr

/-- Character-list trimming: drop leading and trailing whitespace, as
JavaScript's `String.prototype.trim` does. -/
def trimChars (l : List Char) : List Char :=
  ((l.dropWhile Char.isWhitespace).reverse.dropWhile Char.isWhitespace).reverse

/-- Model of JavaScript `name.trim()` (server.js line 119). -/
def jsTrim (s : String) : String :=
  ⟨trimChars s.data⟩

/-- The JSON body of `POST /api/items`: `{ name, isInFridge }` where each
field may be absent (or `null`, which the handler treats the same way via
`?.` and `??`). -/
structure PostBody where
  name : Option String
  isInFridge : Option Bool
deriving DecidableEq, Repr

/-- Responses of the API handlers, together with their JSON payloads. -/
inductive ApiResponse where
  /-- Status 201 with the created row (POST success). -/
  | created (row : Row)
  /-- Status 200 with the updated row (PATCH toggle success). -/
  | okRow (row : Row)
  /-- Status 200 with `{message, deletedItem}` (DELETE success). -/
  | okDeleted (message : String) (deletedItem : Row)
  /-- Status 200 with the array of rows (GET success). -/
  | okList (rows : List Row)
  /-- Status 400 with `{error}`. -/
  | badRequest (error : String)
  /-- Status 404 with `{error}`. -/
  | notFound (error : String)
  /-- Status 500 with `{error, details}` (caught database error). -/
  | dbError (error : String) (details : String)
deriving DecidableEq, Repr

/-- HTTP status code of a response. -/
def ApiResponse.status : ApiResponse → Nat
  | .created _ => 201
  | .okRow _ => 200
  | .okDeleted _ _ => 200
  | .okList _ => 200
  | .badRequest _ => 400
  | .notFound _ => 404
  | .dbError _ _ => 500

/-- Accumulate decimal digits; any non-digit character makes the parse
fail. -/
def digitsToNat (acc : Nat) : List Char → Option Nat
  | [] => some acc
  | c :: cs => if c.isDigit then digitsToNat (acc * 10 + (c.toNat - 48)) cs else none

/-- Model of the PostgreSQL integer parse (`int4in`) applied to the text
path parameter bound to `$1` in `WHERE id = $1`: an optional sign followed
by at least one decimal digit parses, anything else raises
`invalid input syntax for type integer` — a driver error the handler
catches. -/
def pgParseInt (s : String) : Option Int :=
  match s.data with
  | [] => none
  | '-' :: cs => if cs = [] then none else (digitsToNat 0 cs).map (fun n => -(n : Int))
  | '+' :: cs => if cs = [] then none else (digitsToNat 0 cs).map (fun n => (n : Int))
  | cs => (digitsToNat 0 cs).map (fun n => (n : Int))

/-- The name stored in a row is neither empty nor whitespace-only: it
contains at least one non-whitespace character. -/
def rowNameOk (r : Row) : Prop :=
  ∃ c ∈ r.name.data, ¬ c.isWhitespace

/-- The state invariant of the table: `id` values are pairwise distinct
(so an id uniquely identifies a row), every stored name is neither empty
nor whitespace-only, and the SERIAL counter is strictly above every
assigned id (which is how fresh SERIAL ids stay unique). -/
def Inv (st : DBState) : Prop :=
  (st.rows.map Row.id).Nodup ∧ (∀ r ∈ st.rows, rowNameOk r) ∧
    ∀ r ∈ st.rows, r.id < st.nextId

/-- The descending order on `created_at` used by
`SELECT * FROM fridge_items ORDER BY created_at DESC` (server.js line 98). -/
def createdDesc (a b : Row) : Prop :=
  b.created_at ≤ a.created_at

instance : DecidableRel createdDesc := fun a b => Nat.decLe _ _

instance : IsTotal Row createdDesc :=
  ⟨fun a b => (Nat.le_total b.created_at a.created_at).imp id id⟩

instance : IsTrans Row createdDesc :=
  ⟨fun _ _ _ hab hbc => Nat.le_trans hbc hab⟩

/-- The row list produced by `SELECT * FROM fridge_items ORDER BY
created_at DESC`: some ordering of the stored rows that is sorted by
`created_at` descending (ties resolved by storage scan order, here modelled
by a stable sort). -/
def getItems (st : DBState) : List Row :=
  st.rows.insertionSort createdDesc

/-- Handler of `GET /api/items` (server.js lines 95-105), success path:
responds 200 with the rows ordered by `created_at` descending. -/
def getItemsHandler (st : DBState) : ApiResponse :=
  .okList (getItems st)

/-- Handler of `POST /api/items` (server.js lines 108-128).
`if (!name?.trim())` rejects an absent/null name and a name that is empty
after trimming with 400; otherwise `INSERT INTO fridge_items (name,
is_in_fridge) VALUES ($1, $2) RETURNING *` with `$1 = name.trim()` and
`$2 = isInFridge ?? true` appends one row (fresh SERIAL id, current
timestamp `now`) and responds 201 with it. -/
def postItem (st : DBState) (body : PostBody) (now : Nat) : ApiResponse × DBState :=
  match body.name with
  | none => (.badRequest "Name is required", st)
  | some s =>
    if jsTrim s = "" then
      (.badRequest "Name is required", st)
    else
      let row : Row := ⟨st.nextId, jsTrim s, body.isInFridge.getD true, now⟩
      (.created row, ⟨st.rows ++ [row], st.nextId + 1⟩)

/-- The statement `UPDATE fridge_items SET is_in_fridge = NOT is_in_fridge WHERE id = $1`
applied to one row: flip the flag when the id matches. -/
def flipIf (i : Int) (r : Row) : Row :=
  if (r.id : Int) == i then { r with is_in_fridge := !r.is_in_fridge } else r

/-- The whole-table effect of the toggle UPDATE. -/
def applyToggle (i : Int) (rows : List Row) : List Row :=
  rows.map (flipIf i)

/-- The rows a statement `... WHERE id = $1 RETURNING *` reports back. -/
def matchedRows (i : Int) (rows : List Row) : List Row :=
  rows.filter (fun r => (r.id : Int) == i)

/-- Handler of `PATCH /api/items/:id/toggle` (server.js lines 131-151).
The raw path parameter is bound to `$1`; a malformed integer raises a
driver error answered with 500.  Otherwise the UPDATE flips matching rows;
no returned row means 404, else 200 with the updated row. -/
def patchToggle (st : DBState) (idStr : String) : ApiResponse × DBState :=
  match pgParseInt idStr with
  | none =>
    (.dbError "Database error" ("invalid input syntax for type integer: " ++ idStr), st)
  | some i =>
    let updated := applyToggle i st.rows
    match matchedRows i updated with
    | [] => (.notFound "Item not found", st)
    | row :: _ => (.okRow row, ⟨updated, st.nextId⟩)

/-- Handler of `DELETE /api/items/:id` (server.js lines 154-171).
The raw path parameter is bound to `$1`; a malformed integer raises a
driver error answered with 500.  Otherwise `DELETE FROM fridge_items WHERE
id = $1 RETURNING *` removes the matching rows; no returned row means 404,
else 200 with `{message: 'Item deleted', deletedItem}`. -/
def deleteItem (st : DBState) (idStr : String) : ApiResponse × DBState :=
  match pgParseInt idStr with
  | none =>
    (.dbError "Database error" ("invalid input syntax for type integer: " ++ idStr), st)
  | some i =>
    match matchedRows i st.rows with
    | [] => (.notFound "Item not found", st)
    | row :: _ =>
      (.okDeleted "Item deleted" row, ⟨st.rows.filter (fun r => !((r.id : Int) == i)), st.nextId⟩)

/-- Result of the startup connectivity probe `checkConnection`
(server.js lines 27-40): how many `SELECT NOW()` attempts ran, the total
milliseconds spent in `setTimeout(res, 5000)` sleeps, and whether an
attempt succeeded. -/
structure StartupResult where
  attempts : Nat
  delayMs : Nat
  connected : Bool
deriving DecidableEq, Repr

/-- The `while (retries)` loop of `checkConnection`: `retries` starts at 5;
a successful query breaks, a failure decrements `retries` and sleeps
5000 ms.  `succeeds n` tells whether the n-th attempt (0-based) succeeds. -/
def checkConnectionGo (succeeds : Nat → Bool) : Nat → Nat → Nat → StartupResult
  | 0, attempts, delay => ⟨attempts, delay, false⟩
  | retries + 1, attempts, delay =>
    if succeeds attempts then ⟨attempts + 1, delay, true⟩
    else checkConnectionGo succeeds (retries) (attempts + 1) (delay + 5000)

/-- The probe `checkConnection` (server.js lines 27-40) with its initial
`retries = 5`. -/
def checkConnection (succeeds : Nat → Bool) : StartupResult :=
  checkConnectionGo succeeds 5 0 0

/-- Outcome of `initializeApp` (server.js lines 62-69): the connectivity
probe result, then `createTable` runs, then `app.listen` is reached —
unconditionally, whatever the probe did. -/
structure AppInit where
  startup : StartupResult
  tableCreated : Bool
  listening : Bool
deriving DecidableEq, Repr

/-- Startup `initializeApp` (server.js lines 62-69): awaits `checkConnection`,
then `createTable`, then listens; nothing aborts on probe failure. -/
def initializeApp (succeeds : Nat → Bool) : AppInit :=
  ⟨checkConnection succeeds, true, true⟩

/-! ## Helper lemmas -/

lemma flipIf_id (i : Int) (r : Row) : (flipIf i r).id = r.id := by
  unfold flipIf; split <;> rfl

lemma flipIf_name (i : Int) (r : Row) : (flipIf i r).name = r.name := by
  unfold flipIf; split <;> rfl

lemma flipIf_created_at (i : Int) (r : Row) : (flipIf i r).created_at = r.created_at := by
  unfold flipIf; split <;> rfl

lemma flipIf_of_eq {i : Int} {r : Row} (h : (r.id : Int) = i) :
    flipIf i r = { r with is_in_fridge := !r.is_in_fridge } := by
  simp [flipIf, h]

lemma flipIf_of_ne {i : Int} {r : Row} (h : (r.id : Int) ≠ i) :
    flipIf i r = r := by
  simp [flipIf, h]

lemma flipIf_flipIf (i : Int) (r : Row) : flipIf i (flipIf i r) = r := by
  by_cases h : (r.id : Int) = i
  · rw [flipIf_of_eq h, flipIf_of_eq (by simpa using h), Bool.not_not]
  · rw [flipIf_of_ne h, flipIf_of_ne h]

lemma applyToggle_map_id (i : Int) (rows : List Row) :
    (applyToggle i rows).map Row.id = rows.map Row.id := by
  unfold applyToggle
  rw [List.map_map]
  exact List.map_congr_left (fun a _ => flipIf_id i a)

lemma applyToggle_map_name (i : Int) (rows : List Row) :
    (applyToggle i rows).map Row.name = rows.map Row.name := by
  unfold applyToggle
  rw [List.map_map]
  exact List.map_congr_left (fun a _ => flipIf_name i a)

lemma applyToggle_map_created_at (i : Int) (rows : List Row) :
    (applyToggle i rows).map Row.created_at = rows.map Row.created_at := by
  unfold applyToggle
  rw [List.map_map]
  exact List.map_congr_left (fun a _ => flipIf_created_at i a)

lemma applyToggle_applyToggle (i : Int) (rows : List Row) :
    applyToggle i (applyToggle i rows) = rows := by
  unfold applyToggle
  rw [List.map_map]
  calc rows.map (flipIf i ∘ flipIf i) = rows.map id :=
        List.map_congr_left (fun a _ => flipIf_flipIf i a)
    _ = rows := List.map_id rows

lemma matchedRows_eq_nil {i : Int} {rows : List Row}
    (h : ∀ x ∈ rows, (x.id : Int) ≠ i) : matchedRows i rows = [] := by
  unfold matchedRows
  rw [List.filter_eq_nil_iff]
  intro a ha
  simpa using h a ha

lemma matchedRows_eq_singleton {rows : List Row} {r : Row} {i : Int}
    (hnd : (rows.map Row.id).Nodup) (hr : r ∈ rows) (hid : (r.id : Int) = i) :
    matchedRows i rows = [r] := by
  induction rows with
  | nil => cases hr
  | cons x xs ih =>
    rw [List.map_cons, List.nodup_cons] at hnd
    rcases List.mem_cons.mp hr with rfl | hmem
    · have hxs : ∀ y ∈ xs, (y.id : Int) ≠ i := by
        intro y hy hcon
        apply hnd.1
        have hyr : y.id = r.id := by exact_mod_cast hcon.trans hid.symm
        rw [← hyr]
        exact List.mem_map_of_mem Row.id hy
      unfold matchedRows
      rw [List.filter_cons_of_pos (by simpa using hid)]
      have := matchedRows_eq_nil hxs
      unfold matchedRows at this
      rw [this]
    · have hx : (x.id : Int) ≠ i := by
        intro hcon
        apply hnd.1
        have hxr : x.id = r.id := by exact_mod_cast hcon.trans hid.symm
        rw [hxr]
        exact List.mem_map_of_mem Row.id hmem
      unfold matchedRows
      rw [List.filter_cons_of_neg (by simpa using hx)]
      exact ih hnd.2 hmem

/-- The success path of the toggle handler, fully computed. -/
lemma patchToggle_found {st : DBState} {r : Row} {idStr : String} {i : Int}
    (hnd : (st.rows.map Row.id).Nodup) (hr : r ∈ st.rows)
    (hparse : pgParseInt idStr = some i) (hid : (r.id : Int) = i) :
    patchToggle st idStr =
      (.okRow { r with is_in_fridge := !r.is_in_fridge },
        ⟨applyToggle i st.rows, st.nextId⟩) := by
  have hmem : { r with is_in_fridge := !r.is_in_fridge } ∈ applyToggle i st.rows := by
    have h1 : flipIf i r ∈ applyToggle i st.rows := List.mem_map_of_mem _ hr
    rwa [flipIf_of_eq hid] at h1
  have hnd' : ((applyToggle i st.rows).map Row.id).Nodup := by
    rw [applyToggle_map_id]; exact hnd
  have h2 : matchedRows i (applyToggle i st.rows) =
      [{ r with is_in_fridge := !r.is_in_fridge }] :=
    matchedRows_eq_singleton hnd' hmem hid
  unfold patchToggle
  rw [hparse]
  simp [h2]

/-- The success path of the delete handler, fully computed. -/
lemma deleteItem_found {st : DBState} {r : Row} {idStr : String} {i : Int}
    (hnd : (st.rows.map Row.id).Nodup) (hr : r ∈ st.rows)
    (hparse : pgParseInt idStr = some i) (hid : (r.id : Int) = i) :
    deleteItem st idStr =
      (.okDeleted "Item deleted" r,
        ⟨st.rows.filter (fun x => !((x.id : Int) == i)), st.nextId⟩) := by
  unfold deleteItem
  rw [hparse]
  simp [matchedRows_eq_singleton hnd hr hid]

/-- The not-found path of the delete handler. -/
lemma deleteItem_not_found {st : DBState} {idStr : String} {i : Int}
    (hparse : pgParseInt idStr = some i)
    (habs : ∀ x ∈ st.rows, (x.id : Int) ≠ i) :
    deleteItem st idStr = (.notFound "Item not found", st) := by
  unfold deleteItem
  rw [hparse]
  simp [matchedRows_eq_nil habs]

/-- A nonempty trimmed string contains a non-whitespace character. -/
lemma exists_not_ws_of_trimChars_ne_nil {l : List Char} (h : trimChars l ≠ []) :
    ∃ c ∈ trimChars l, ¬ c.isWhitespace := by
  unfold trimChars at h ⊢
  have hne : (l.dropWhile Char.isWhitespace).reverse.dropWhile Char.isWhitespace ≠ [] := by
    simpa using h
  have hhead := List.head_dropWhile_not Char.isWhitespace
    (l.dropWhile Char.isWhitespace).reverse hne
  exact ⟨_, List.mem_reverse.mpr (List.head_mem hne), by simp [hhead]⟩

lemma trimChars_eq_nil_of_all_ws {l : List Char} (h : ∀ c ∈ l, c.isWhitespace) :
    trimChars l = [] := by
  unfold trimChars
  rw [List.dropWhile_eq_nil_iff.mpr h]
  rfl

lemma jsTrim_eq_empty_iff {s : String} : jsTrim s = "" ↔ trimChars s.data = [] := by
  unfold jsTrim
  constructor
  · intro h
    simpa using congrArg String.data h
  · intro h
    rw [h]

lemma jsTrim_eq_empty_of_all_ws {s : String} (h : ∀ c ∈ s.data, c.isWhitespace) :
    jsTrim s = "" :=
  jsTrim_eq_empty_iff.mpr (trimChars_eq_nil_of_all_ws h)

/-! ## Claim theorems -/

/-- C2: a POST /api/items request whose name is missing (or null), empty,
or whitespace-only is answered 400 with `{error: 'Name is required'}` and
leaves the stored table unchanged. -/
theorem post_blank_name_rejected (st : DBState) (body : PostBody) (now : Nat)
    (h : body.name = none ∨ ∃ s, body.name = some s ∧ ∀ c ∈ s.data, c.isWhitespace) :
    postItem st body now = (.badRequest "Name is required", st) ∧
      (postItem st body now).1.status = 400 := by
  have hpost : postItem st body now = (.badRequest "Name is required", st) := by
    rcases h with h | ⟨s, hs, hws⟩
    · unfold postItem
      rw [h]
    · unfold postItem
      rw [hs]
      simp [jsTrim_eq_empty_of_all_ws hws]
  exact ⟨hpost, by rw [hpost]; rfl⟩

/-- Witness for C2 at the whitespace-only name `"   "`. -/
theorem post_blank_name_rejected_witness :
    postItem ⟨[], 1⟩ ⟨some "   ", none⟩ 0 = (.badRequest "Name is required", ⟨[], 1⟩) :=
  (post_blank_name_rejected ⟨[], 1⟩ ⟨some "   ", none⟩ 0
    (Or.inr ⟨"   ", rfl, by decide⟩)).1

/-- C10: a PATCH toggle or DELETE whose `:id` path parameter is not a
well-formed integer is answered 500 `{error: 'Database error', details}`
(the driver's parse error is caught), not 404, and the table is
unchanged. -/
theorem malformed_id_gives_500 (st : DBState) (idStr : String)
    (h : pgParseInt idStr = none) :
    patchToggle st idStr =
      (.dbError "Database error" ("invalid input syntax for type integer: " ++ idStr), st) ∧
    deleteItem st idStr =
      (.dbError "Database error" ("invalid input syntax for type integer: " ++ idStr), st) ∧
    (patchToggle st idStr).1.status = 500 ∧
    (deleteItem st idStr).1.status = 500 ∧
    (patchToggle st idStr).1.status ≠ 404 ∧
    (deleteItem st idStr).1.status ≠ 404 := by
  have h1 : patchToggle st idStr =
      (.dbError "Database error" ("invalid input syntax for type integer: " ++ idStr), st) := by
    unfold patchToggle
    rw [h]
  have h2 : deleteItem st idStr =
      (.dbError "Database error" ("invalid input syntax for type integer: " ++ idStr), st) := by
    unfold deleteItem
    rw [h]
  refine ⟨h1, h2, by rw [h1]; rfl, by rw [h2]; rfl, ?_, ?_⟩
  · rw [h1]
    show (500 : Nat) ≠ 404
    omega
  · rw [h2]
    show (500 : Nat) ≠ 404
    omega

/-- Witness for C10 at the malformed id `"abc"`. -/
theorem malformed_id_gives_500_witness :
    pgParseInt "abc" = none ∧
    patchToggle ⟨[], 1⟩ "abc" =
      (.dbError "Database error" ("invalid input syntax for type integer: " ++ "abc"),
        ⟨[], 1⟩) :=
  ⟨by decide, (malformed_id_gives_500 ⟨[], 1⟩ "abc" (by decide)).1⟩

lemma checkConnectionGo_le (succeeds : Nat → Bool) :
    ∀ k a d, (checkConnectionGo succeeds k a d).attempts ≤ a + k ∧
      (checkConnectionGo succeeds k a d).delayMs ≤ d + 5000 * k := by
  intro k
  induction k with
  | zero =>
    intro a d
    simp [checkConnectionGo]
  | succ n ih =>
    intro a d
    rw [checkConnectionGo]
    by_cases h : succeeds a
    · simp [h]
    · simp [h]
      have := ih (a + 1) (d + 5000)
      exact ⟨le_trans this.1 (by omega), le_trans this.2 (by omega)⟩

lemma checkConnectionGo_all_fail (succeeds : Nat → Bool)
    (hf : ∀ n, succeeds n = false) :
    ∀ k a d, checkConnectionGo succeeds k a d = ⟨a + k, d + 5000 * k, false⟩ := by
  intro k
  induction k with
  | zero =>
    intro a d
    simp [checkConnectionGo]
  | succ n ih =>
    intro a d
    rw [checkConnectionGo, hf a]
    simp only [Bool.false_eq_true, if_false]
    rw [ih (a + 1) (d + 5000)]
    congr 1 <;> omega

/-- C9: the startup probe runs at most 5 `SELECT NOW()` attempts with a
fixed 5000 ms sleep after each failure; when every attempt fails it stops
after exactly 5 attempts (25 s of delay), and `initializeApp` still
reaches `createTable` and `app.listen` regardless of the probe's
outcome. -/
theorem startup_probe_bounded (succeeds : Nat → Bool) :
    (checkConnection succeeds).attempts ≤ 5 ∧
    (checkConnection succeeds).delayMs ≤ 25000 ∧
    ((∀ n, succeeds n = false) → checkConnection succeeds = ⟨5, 25000, false⟩) ∧
    (initializeApp succeeds).tableCreated = true ∧
    (initializeApp succeeds).listening = true := by
  refine ⟨?_, ?_, ?_, rfl, rfl⟩
  · simpa using (checkConnectionGo_le succeeds 5 0 0).1
  · simpa using (checkConnectionGo_le succeeds 5 0 0).2
  · intro hf
    simpa using checkConnectionGo_all_fail succeeds hf 5 0 0

/-- Witness for C9: when every attempt fails the probe stops after 5
attempts and 25 s of accumulated delay, and the app still listens. -/
theorem startup_probe_bounded_witness :
    checkConnection (fun _ => false) = ⟨5, 25000, false⟩ ∧
    (initializeApp (fun _ => false)).listening = true :=
  ⟨(startup_probe_bounded (fun _ => false)).2.2.1 (fun _ => rfl),
    (startup_probe_bounded (fun _ => false)).2.2.2.2⟩

/-- C6: GET /api/items responds 200 with an ordering of the stored rows —
each row kept with its multiplicity — that is sorted by `created_at`
descending (`createdDesc`); the order of ties is whatever the sort
produced, nothing more is claimed. -/
theorem get_items_sorted (st : DBState) :
    getItemsHandler st = .okList (getItems st) ∧
    (getItemsHandler st).status = 200 ∧
    List.Perm (getItems st) st.rows ∧
    (∀ x, (getItems st).count x = st.rows.count x) ∧
    List.Sorted createdDesc (getItems st) := by
  have hperm : List.Perm (getItems st) st.rows :=
    List.perm_insertionSort createdDesc st.rows
  exact ⟨rfl, rfl, hperm, fun x => hperm.count_eq x,
    List.sorted_insertionSort createdDesc st.rows⟩

/-- C1: a POST /api/items whose name is a string that is non-empty after
trimming appends exactly one row — trimmed name, `is_in_fridge` the
supplied `isInFridge` or `true` when it is absent/null, fresh SERIAL id,
current timestamp — answers 201 with that row, and a subsequent GET
/api/items contains exactly that one row with the fresh id. -/
theorem post_valid_creates_row (st : DBState) (body : PostBody) (now : Nat) (s : String)
    (hname : body.name = some s) (hne : jsTrim s ≠ "")
    (hfresh : ∀ r ∈ st.rows, r.id < st.nextId) :
    postItem st body now =
      (.created ⟨st.nextId, jsTrim s, body.isInFridge.getD true, now⟩,
        ⟨st.rows ++ [⟨st.nextId, jsTrim s, body.isInFridge.getD true, now⟩],
          st.nextId + 1⟩) ∧
    (postItem st body now).1.status = 201 ∧
    (getItems (postItem st body now).2).filter (fun x => x.id == st.nextId) =
      [⟨st.nextId, jsTrim s, body.isInFridge.getD true, now⟩] := by
  have hpost : postItem st body now =
      (.created ⟨st.nextId, jsTrim s, body.isInFridge.getD true, now⟩,
        ⟨st.rows ++ [⟨st.nextId, jsTrim s, body.isInFridge.getD true, now⟩],
          st.nextId + 1⟩) := by
    unfold postItem
    rw [hname]
    simp [hne]
  refine ⟨hpost, by rw [hpost]; rfl, ?_⟩
  rw [hpost]
  have hperm : List.Perm
      ((getItems ⟨st.rows ++ [(⟨st.nextId, jsTrim s, body.isInFridge.getD true, now⟩ : Row)],
        st.nextId + 1⟩).filter (fun x => x.id == st.nextId))
      ((st.rows ++ [(⟨st.nextId, jsTrim s, body.isInFridge.getD true, now⟩ : Row)]).filter
        (fun x => x.id == st.nextId)) :=
    List.Perm.filter _ (List.perm_insertionSort createdDesc _)
  have hfilter : (st.rows ++ [(⟨st.nextId, jsTrim s, body.isInFridge.getD true, now⟩ : Row)]).filter
      (fun x => x.id == st.nextId) =
      [(⟨st.nextId, jsTrim s, body.isInFridge.getD true, now⟩ : Row)] := by
    rw [List.filter_append]
    have h1 : st.rows.filter (fun x => x.id == st.nextId) = [] := by
      rw [List.filter_eq_nil_iff]
      intro a ha
      have := hfresh a ha
      simp only [beq_iff_eq]
      omega
    rw [h1]
    simp
  rw [hfilter] at hperm
  exact List.Perm.eq_singleton hperm

/-- Witness for C1: posting `" Milk "` to a one-row table. -/
theorem post_valid_creates_row_witness :
    postItem ⟨[⟨1, "Eggs", true, 0⟩], 2⟩ ⟨some " Milk ", none⟩ 3 =
      (.created ⟨2, jsTrim " Milk ", true, 3⟩,
        ⟨[⟨1, "Eggs", true, 0⟩, ⟨2, jsTrim " Milk ", true, 3⟩], 2 + 1⟩) :=
  (post_valid_creates_row ⟨[⟨1, "Eggs", true, 0⟩], 2⟩ ⟨some " Milk ", none⟩ 3 " Milk "
    rfl (by decide) (by decide)).1

/-- C4: a PATCH toggle or DELETE whose well-formed id matches no stored
row is answered 404 with `{error: 'Item not found'}` and leaves the table
exactly as it was. -/
theorem missing_id_gives_404 (st : DBState) (idStr : String) (i : Int)
    (hparse : pgParseInt idStr = some i)
    (habs : ∀ x ∈ st.rows, (x.id : Int) ≠ i) :
    patchToggle st idStr = (.notFound "Item not found", st) ∧
    deleteItem st idStr = (.notFound "Item not found", st) ∧
    (patchToggle st idStr).1.status = 404 ∧
    (deleteItem st idStr).1.status = 404 := by
  have hdel : matchedRows i st.rows = [] := matchedRows_eq_nil habs
  have hpat : matchedRows i (applyToggle i st.rows) = [] := by
    apply matchedRows_eq_nil
    intro x hx
    rcases List.mem_map.mp (by simpa [applyToggle] using hx) with ⟨y, hy, rfl⟩
    rw [flipIf_id]
    exact habs y hy
  have h1 : patchToggle st idStr = (.notFound "Item not found", st) := by
    unfold patchToggle
    rw [hparse]
    simp [hpat]
  have h2 : deleteItem st idStr = (.notFound "Item not found", st) := by
    unfold deleteItem
    rw [hparse]
    simp [hdel]
  exact ⟨h1, h2, by rw [h1]; rfl, by rw [h2]; rfl⟩

/-- Witness for C4: toggling and deleting id 7 in a table whose only row
has id 1. -/
theorem missing_id_gives_404_witness :
    patchToggle ⟨[⟨1, "Milk", true, 0⟩], 2⟩ "7" =
      (.notFound "Item not found", ⟨[⟨1, "Milk", true, 0⟩], 2⟩) ∧
    deleteItem ⟨[⟨1, "Milk", true, 0⟩], 2⟩ "7" =
      (.notFound "Item not found", ⟨[⟨1, "Milk", true, 0⟩], 2⟩) := by
  have h := missing_id_gives_404 ⟨[⟨1, "Milk", true, 0⟩], 2⟩ "7" 7
    (by decide) (by decide)
  exact ⟨h.1, h.2.1⟩

/-- C3: PATCH /api/items/:id/toggle on a stored row's id answers 200 with
the row whose `is_in_fridge` is negated, the stored row is negated (a
single toggle never leaves the flag at its original value), and a second
toggle on the same id restores the table exactly. -/
theorem toggle_flips_twice_restores (st : DBState) (r : Row) (idStr : String)
    (hnd : (st.rows.map Row.id).Nodup) (hr : r ∈ st.rows)
    (hparse : pgParseInt idStr = some (r.id : Int)) :
    (patchToggle st idStr).1 = .okRow { r with is_in_fridge := !r.is_in_fridge } ∧
    (patchToggle st idStr).1.status = 200 ∧
    { r with is_in_fridge := !r.is_in_fridge } ∈ (patchToggle st idStr).2.rows ∧
    ({ r with is_in_fridge := !r.is_in_fridge }).is_in_fridge ≠ r.is_in_fridge ∧
    (patchToggle (patchToggle st idStr).2 idStr).2.rows = st.rows := by
  have h1 := patchToggle_found hnd hr hparse rfl
  have hmem : ({ r with is_in_fridge := !r.is_in_fridge } : Row) ∈
      applyToggle (r.id : Int) st.rows := by
    have h := List.mem_map_of_mem (flipIf (r.id : Int)) hr
    rwa [flipIf_of_eq rfl] at h
  refine ⟨by rw [h1], by rw [h1]; rfl, by rw [h1]; exact hmem, ?_, ?_⟩
  · show (!r.is_in_fridge) ≠ r.is_in_fridge
    exact Bool.not_ne_self r.is_in_fridge
  · have hnd1 : ((applyToggle (r.id : Int) st.rows).map Row.id).Nodup := by
      rw [applyToggle_map_id]
      exact hnd
    have h2 := @patchToggle_found ⟨applyToggle (r.id : Int) st.rows, st.nextId⟩ _ _ _
      hnd1 hmem hparse rfl
    rw [h1, h2]
    exact applyToggle_applyToggle _ _

/-- Witness for C3 on a one-row table. -/
theorem toggle_flips_twice_restores_witness :
    (patchToggle ⟨[⟨1, "Milk", true, 0⟩], 2⟩ "1").1 = .okRow ⟨1, "Milk", false, 0⟩ ∧
    (patchToggle (patchToggle ⟨[⟨1, "Milk", true, 0⟩], 2⟩ "1").2 "1").2.rows =
      [⟨1, "Milk", true, 0⟩] := by
  have h := toggle_flips_twice_restores ⟨[⟨1, "Milk", true, 0⟩], 2⟩ ⟨1, "Milk", true, 0⟩ "1"
    (by decide) (by decide) (by decide)
  exact ⟨h.1, h.2.2.2.2⟩

/-- C5: DELETE /api/items/:id on a stored row's id answers 200 with
`{message: 'Item deleted', deletedItem: row}`, a subsequent GET no longer
includes that row (no row with that id remains), and a second DELETE on
the same id answers 404. -/
theorem delete_removes_row (st : DBState) (r : Row) (idStr : String)
    (hnd : (st.rows.map Row.id).Nodup) (hr : r ∈ st.rows)
    (hparse : pgParseInt idStr = some (r.id : Int)) :
    (deleteItem st idStr).1 = .okDeleted "Item deleted" r ∧
    (deleteItem st idStr).1.status = 200 ∧
    r ∉ getItems (deleteItem st idStr).2 ∧
    (∀ x ∈ getItems (deleteItem st idStr).2, x.id ≠ r.id) ∧
    (deleteItem (deleteItem st idStr).2 idStr).1 = .notFound "Item not found" := by
  have h1 := deleteItem_found hnd hr hparse rfl
  have hkept : ∀ x ∈ (deleteItem st idStr).2.rows, x.id ≠ r.id := by
    rw [h1]
    intro x hx
    have hpred := (List.mem_filter.mp hx).2
    simp only [Bool.not_eq_eq_eq_not, Bool.not_true, beq_eq_false_iff_ne] at hpred
    intro hc
    exact hpred (by exact_mod_cast hc)
  have hget : ∀ x ∈ getItems (deleteItem st idStr).2, x.id ≠ r.id := by
    intro x hx
    exact hkept x ((List.perm_insertionSort createdDesc _).mem_iff.mp hx)
  refine ⟨by rw [h1], by rw [h1]; rfl, ?_, hget, ?_⟩
  · intro hc
    exact hget r hc rfl
  · have habs2 : ∀ x ∈ st.rows.filter (fun x => !((x.id : Int) == (r.id : Int))),
        (x.id : Int) ≠ (r.id : Int) := by
      intro x hx hc
      have h := (List.mem_filter.mp hx).2
      simp only [Bool.not_eq_eq_eq_not, Bool.not_true, beq_eq_false_iff_ne] at h
      exact h hc
    rw [h1, deleteItem_not_found hparse habs2]

/-- Witness for C5 on a two-row table. -/
theorem delete_removes_row_witness :
    (deleteItem ⟨[⟨1, "Milk", true, 0⟩, ⟨2, "Eggs", false, 1⟩], 3⟩ "2").1 =
      .okDeleted "Item deleted" ⟨2, "Eggs", false, 1⟩ ∧
    (deleteItem (deleteItem ⟨[⟨1, "Milk", true, 0⟩, ⟨2, "Eggs", false, 1⟩], 3⟩ "2").2 "2").1 =
      .notFound "Item not found" := by
  have h := delete_removes_row ⟨[⟨1, "Milk", true, 0⟩, ⟨2, "Eggs", false, 1⟩], 3⟩
    ⟨2, "Eggs", false, 1⟩ "2" (by decide) (by decide) (by decide)
  exact ⟨h.1, h.2.2.2.2⟩

/-- C7: a successful toggle changes only the matched row's `is_in_fridge`:
the lists of ids, names and timestamps are unchanged, every other row is
kept as-is, the SERIAL counter is untouched; POST keeps every existing row
unchanged and DELETE only ever removes rows, so toggle is the only
operation that mutates an existing row. -/
theorem toggle_frame_only_flag (st : DBState) (r : Row) (idStr : String)
    (hnd : (st.rows.map Row.id).Nodup) (hr : r ∈ st.rows)
    (hparse : pgParseInt idStr = some (r.id : Int)) :
    (patchToggle st idStr).2.rows.map Row.id = st.rows.map Row.id ∧
    (patchToggle st idStr).2.rows.map Row.name = st.rows.map Row.name ∧
    (patchToggle st idStr).2.rows.map Row.created_at = st.rows.map Row.created_at ∧
    (∀ x ∈ st.rows, x.id ≠ r.id → x ∈ (patchToggle st idStr).2.rows) ∧
    { r with is_in_fridge := !r.is_in_fridge } ∈ (patchToggle st idStr).2.rows ∧
    (patchToggle st idStr).2.nextId = st.nextId ∧
    (∀ body now x, x ∈ st.rows → x ∈ (postItem st body now).2.rows) ∧
    (∀ t x, x ∈ (deleteItem st t).2.rows → x ∈ st.rows) := by
  have h1 := patchToggle_found hnd hr hparse rfl
  rw [h1]
  refine ⟨applyToggle_map_id _ _, applyToggle_map_name _ _,
    applyToggle_map_created_at _ _, ?_, ?_, rfl, ?_, ?_⟩
  · intro x hx hne
    have hmem := List.mem_map_of_mem (flipIf (r.id : Int)) hx
    rw [flipIf_of_ne (by exact_mod_cast hne)] at hmem
    exact hmem
  · have hmem := List.mem_map_of_mem (flipIf (r.id : Int)) hr
    rwa [flipIf_of_eq rfl] at hmem
  · intro body now x hx
    unfold postItem
    rcases hbn : body.name with _ | s
    · exact hx
    · by_cases hts : jsTrim s = ""
      · simp only [hts, if_pos rfl]
        exact hx
      · simp only [if_neg hts]
        exact List.mem_append_left _ hx
  · intro t x hx
    unfold deleteItem at hx
    split at hx
    · exact hx
    · split at hx
      · exact hx
      · exact List.mem_of_mem_filter hx

/-- Witness for C7: the frame condition at a concrete two-row table. -/
theorem toggle_frame_only_flag_witness :
    (patchToggle ⟨[⟨1, "Milk", true, 0⟩, ⟨2, "Eggs", false, 1⟩], 3⟩ "1").2.rows.map Row.name =
      ([⟨1, "Milk", true, 0⟩, ⟨2, "Eggs", false, 1⟩] : List Row).map Row.name ∧
    (⟨2, "Eggs", false, 1⟩ : Row) ∈
      (patchToggle ⟨[⟨1, "Milk", true, 0⟩, ⟨2, "Eggs", false, 1⟩], 3⟩ "1").2.rows := by
  have h := toggle_frame_only_flag ⟨[⟨1, "Milk", true, 0⟩, ⟨2, "Eggs", false, 1⟩], 3⟩
    ⟨1, "Milk", true, 0⟩ "1" (by decide) (by decide) (by decide)
  exact ⟨h.2.1, h.2.2.2.1 ⟨2, "Eggs", false, 1⟩ (by decide) (by decide)⟩

/-- C8: `Inv` — pairwise-distinct ids (so an id uniquely identifies its
row), no empty or whitespace-only name, and the SERIAL counter above every
assigned id — is preserved by POST, PATCH toggle and DELETE, hence holds
in every state those operations can reach from a state satisfying it. -/
theorem handlers_preserve_invariant (st : DBState) (h : Inv st) :
    (∀ body now, Inv (postItem st body now).2) ∧
    (∀ idStr, Inv (patchToggle st idStr).2) ∧
    (∀ idStr, Inv (deleteItem st idStr).2) := by
  obtain ⟨hnd, hnames, hfresh⟩ := h
  refine ⟨?_, ?_, ?_⟩
  · intro body now
    unfold postItem
    rcases hbn : body.name with _ | s
    · exact ⟨hnd, hnames, hfresh⟩
    · by_cases hts : jsTrim s = ""
      · simp only [hts, if_pos rfl]
        exact ⟨hnd, hnames, hfresh⟩
      · simp only [if_neg hts]
        refine ⟨?_, ?_, ?_⟩
        · rw [List.map_append]
          rw [List.nodup_append]
          refine ⟨hnd, List.nodup_singleton _, ?_⟩
          intro a ha hb
          simp only [List.map_cons, List.map_nil, List.mem_singleton] at hb
          rcases List.mem_map.mp ha with ⟨y, hy, rfl⟩
          have := hfresh y hy
          omega
        · intro x hx
          rcases List.mem_append.mp hx with hx | hx
          · exact hnames x hx
          · rw [List.mem_singleton] at hx
            subst hx
            unfold rowNameOk
            exact exists_not_ws_of_trimChars_ne_nil (jsTrim_eq_empty_iff.not.mp hts)
        · intro x hx
          rcases List.mem_append.mp hx with hx | hx
          · exact Nat.lt_succ_of_lt (hfresh x hx)
          · rw [List.mem_singleton] at hx
            subst hx
            exact Nat.lt_succ_self _
  · intro idStr
    unfold patchToggle
    split
    · exact ⟨hnd, hnames, hfresh⟩
    · rename_i i heq
      show Inv (match matchedRows i (applyToggle i st.rows) with
        | [] => (ApiResponse.notFound "Item not found", st)
        | row :: _ => (ApiResponse.okRow row,
            (⟨applyToggle i st.rows, st.nextId⟩ : DBState))).2
      split
      · exact ⟨hnd, hnames, hfresh⟩
      · refine ⟨?_, ?_, ?_⟩
        · show ((applyToggle i st.rows).map Row.id).Nodup
          rw [applyToggle_map_id]
          exact hnd
        · intro x hx
          have hx2 : x ∈ st.rows.map (flipIf i) := hx
          rcases List.mem_map.mp hx2 with ⟨y, hy, rfl⟩
          unfold rowNameOk
          rw [flipIf_name]
          exact hnames y hy
        · intro x hx
          have hx2 : x ∈ st.rows.map (flipIf i) := hx
          rcases List.mem_map.mp hx2 with ⟨y, hy, rfl⟩
          rw [flipIf_id]
          exact hfresh y hy
  · intro idStr
    unfold deleteItem
    split
    · exact ⟨hnd, hnames, hfresh⟩
    · split
      · exact ⟨hnd, hnames, hfresh⟩
      · rename_i i heq a tl hm
        refine ⟨?_, ?_, ?_⟩
        · show ((st.rows.filter _).map Row.id).Nodup
          exact List.Nodup.sublist (List.Sublist.map Row.id (List.filter_sublist _)) hnd
        · intro x hx
          exact hnames x (List.mem_of_mem_filter hx)
        · intro x hx
          exact hfresh x (List.mem_of_mem_filter hx)

/-- Witness for C8: the invariant holds of a concrete one-row state and is
kept by a concrete POST. -/
theorem handlers_preserve_invariant_witness :
    Inv ⟨[⟨1, "Milk", true, 0⟩], 2⟩ ∧
    Inv (postItem ⟨[⟨1, "Milk", true, 0⟩], 2⟩ ⟨some "Egg", none⟩ 5).2 := by
  have hinv : Inv ⟨[⟨1, "Milk", true, 0⟩], 2⟩ := by
    unfold Inv rowNameOk
    refine ⟨by decide, by decide, by decide⟩
  exact ⟨hinv, (handlers_preserve_invariant _ hinv).1 ⟨some "Egg", none⟩ 5⟩

end Fridge
